import Mathlib

/-!
TTFN: verification of `server.go`

A shallow embedding of the fallback-response server of the TTFN repository
(`src/server.go`): the decoy image generator (`randInt`, `randColor`,
`serveImage`), the fallback dispatcher (`customHTTPErrorHandler`) and the
listener construction and lifecycle of `main`.

Go's `int` is embedded as `Int` (every value that occurs is far below 2^63),
`uint8` as a `Nat` below 256, and a Go `string` as a `String`; the one string
test of the program compares against an ASCII suffix, for which comparing
characters and comparing bytes agree.
Library calls (`math/rand`, `image`, `crypto/tls`, `net/http`) are embedded by
their documented contracts.
-/

namespace TTFN

/-! ## The random generator -/

/-- State of the process-wide generator of `math/rand`: an unbounded stream of
raw draws, the number of draws consumed so far, and the arguments of the
`Intn` calls made so far (oldest first). -/
structure Rng where
  draws : Nat → Nat
  pos : Nat
  calls : List Int

/-- Contract of `rand.Intn(n)`: panics (`none`) when `n <= 0`, otherwise
consumes one draw and returns a value of `[0, n)`, here the raw draw reduced
modulo `n`. -/
def Intn (n : Int) (g : Rng) : Option (Int × Rng) :=
  if n ≤ 0 then none
  else some ((g.draws g.pos : Int) % n, { g with pos := g.pos + 1, calls := g.calls ++ [n] })

/-- Embedding of `randInt(min, max)`: `min + rand.Intn(max-min)`. -/
def randInt (min max : Int) (g : Rng) : Option (Int × Rng) :=
  match Intn (max - min) g with
  | none => none
  | some (v, g1) => some (min + v, g1)

/-! ## Colours and images -/

/-- Go conversion `uint8(v)` of an `int`: truncation to the low eight bits. -/
def uint8 (v : Int) : Nat := (v % 256).toNat

/-- Value of type `color.RGBA`. -/
structure RGBA where
  R : Nat
  G : Nat
  B : Nat
  A : Nat
  deriving DecidableEq, Repr

/-- Embedding of `randColor()`: three calls of `randInt(0, 255)`, evaluated
left to right, each converted to `uint8`, and alpha `0xFF`. -/
def randColor (g : Rng) : Option (RGBA × Rng) :=
  match randInt 0 255 g with
  | none => none
  | some (r, g1) =>
    match randInt 0 255 g1 with
    | none => none
    | some (gr, g2) =>
      match randInt 0 255 g2 with
      | none => none
      | some (b, g3) => some (⟨uint8 r, uint8 gr, uint8 b, 0xFF⟩, g3)

/-- Value of type `*image.RGBA` with bounds `image.Rect(0, 0, W, H)`: the
bounds and the colour stored at each coordinate. -/
structure Image where
  W : Int
  H : Int
  RGBAAt : Int → Int → RGBA

/-- Contract of `image.NewRGBA(image.Rect(0, 0, w, h))` for `w, h >= 0`: every
pixel is the zero colour (transparent black). -/
def NewRGBA (w h : Int) : Image :=
  { W := w, H := h, RGBAAt := fun _ _ => ⟨0, 0, 0, 0⟩ }

/-- Contract of `(*image.RGBA).Set(x, y, c)` for a `color.RGBA` value: stores
`c` at `(x, y)` when the point lies in the bounds, and does nothing otherwise. -/
def Image.Set (img : Image) (x y : Int) (c : RGBA) : Image :=
  if 0 ≤ x ∧ x < img.W ∧ 0 ≤ y ∧ y < img.H then
    { img with RGBAAt := fun x1 y1 => if x1 = x ∧ y1 = y then c else img.RGBAAt x1 y1 }
  else img

/-- Inner loop of `serveImage`: `for y := y; y < height; y++ { img.Set(x, y, randColor()) }`. -/
def serveImage.loopY (x height : Int) (y : Int) (img : Image) (g : Rng) : Option (Image × Rng) :=
  if y < height then
    match randColor g with
    | none => none
    | some (c, g1) => serveImage.loopY x height (y + 1) (img.Set x y c) g1
  else some (img, g)
termination_by (height - y).toNat
decreasing_by omega

/-- Outer loop of `serveImage`: `for x := x; x < width; x++ { for y := 0; ... }`. -/
def serveImage.loopX (width height : Int) (x : Int) (img : Image) (g : Rng) : Option (Image × Rng) :=
  if x < width then
    match serveImage.loopY x height 0 img g with
    | none => none
    | some (img1, g1) => serveImage.loopX width height (x + 1) img1 g1
  else some (img, g)
termination_by (width - x).toNat
decreasing_by omega

/-- Embedding of `serveImage` up to the call of `jpeg.Encode`: returns the
image handed to the encoder and the generator state, or `none` on a panic.
The two path arguments are not used by the body. -/
def serveImage (g : Rng) : Option (Image × Rng) :=
  match randInt 10 50 g with
  | none => none
  | some (width, g1) =>
    let height := width
    let img := NewRGBA width height
    serveImage.loopX width height 0 img g1

/-! ## The fallback dispatcher -/

/-- Contract of `strings.HasSuffix(s, suffix)`:
`len(s) >= len(suffix) && s[len(s)-len(suffix):] == suffix`. -/
def HasSuffix (s suffix : String) : Bool :=
  decide (s.data.length ≥ suffix.data.length) &&
    decide (s.data.drop (s.data.length - suffix.data.length) = suffix.data)

/-- A call made by `customHTTPErrorHandler`, with the arguments that identify it:
`serveImage(dir, req.URL.Path, resp)` or `heff.DefaultHoneypot(resp, req)`. -/
inductive Call where
  | serveImage (basepath : String) (sepecifcpath : String)
  | DefaultHoneypot (reqPath : String)
  deriving DecidableEq, Repr

/-- Embedding of `customHTTPErrorHandler(err, c)`: the calls it makes, in
order, for the global `dir`, the error and the request path `req.URL.Path`. -/
def customHTTPErrorHandler (dir : String) (err : String) (reqPath : String) : List Call :=
  if HasSuffix reqPath ".jpg" then
    [Call.serveImage dir reqPath]
  else
    [Call.DefaultHoneypot reqPath]

/-! ## Listener construction in `main` -/

/-- The command-line flags registered in `init`. -/
structure Flags where
  dir : String
  host : String
  port : String
  proxy : String
  loglevel : String
  logfile : String
  certfile : String
  keyfile : String

/-- Protocol version constant `tls.VersionTLS12`. -/
def VersionTLS12 : Nat := 0x0303

/-- Named curves of `crypto/tls` (type `tls.CurveID`). -/
inductive CurveID where
  | CurveP256
  | CurveP384
  | CurveP521
  | X25519
  deriving DecidableEq, Repr

/-- Size in bits of the field of a named curve. -/
def CurveID.bits : CurveID → Nat
  | .CurveP256 => 256
  | .CurveP384 => 384
  | .CurveP521 => 521
  | .X25519 => 255

/-- Cipher suite constants of `crypto/tls`. -/
inductive CipherSuite where
  | TLS_RSA_WITH_RC4_128_SHA
  | TLS_RSA_WITH_3DES_EDE_CBC_SHA
  | TLS_RSA_WITH_AES_128_CBC_SHA
  | TLS_RSA_WITH_AES_256_CBC_SHA
  | TLS_RSA_WITH_AES_128_GCM_SHA256
  | TLS_RSA_WITH_AES_256_GCM_SHA384
  | TLS_ECDHE_ECDSA_WITH_RC4_128_SHA
  | TLS_ECDHE_ECDSA_WITH_AES_128_CBC_SHA
  | TLS_ECDHE_ECDSA_WITH_AES_256_CBC_SHA
  | TLS_ECDHE_RSA_WITH_RC4_128_SHA
  | TLS_ECDHE_RSA_WITH_3DES_EDE_CBC_SHA
  | TLS_ECDHE_RSA_WITH_AES_128_CBC_SHA
  | TLS_ECDHE_RSA_WITH_AES_256_CBC_SHA
  | TLS_ECDHE_RSA_WITH_AES_128_GCM_SHA256
  | TLS_ECDHE_ECDSA_WITH_AES_128_GCM_SHA256
  | TLS_ECDHE_RSA_WITH_AES_256_GCM_SHA384
  | TLS_ECDHE_ECDSA_WITH_AES_256_GCM_SHA384
  deriving DecidableEq, Repr

/-- Key exchange and authentication named by a cipher suite. -/
inductive KeyExchange where
  | RSA
  | ECDHE_RSA
  | ECDHE_ECDSA
  deriving DecidableEq, Repr

/-- Bulk cipher named by a cipher suite. -/
inductive BulkCipher where
  | RC4_128
  | TDES_EDE
  | AES_128
  | AES_256
  deriving DecidableEq, Repr

/-- Mode of operation named by a cipher suite. -/
inductive CipherMode where
  | Stream
  | CBC
  | GCM
  deriving DecidableEq, Repr

/-- Key exchange that the name of the suite states. -/
def CipherSuite.keyExchange : CipherSuite → KeyExchange
  | .TLS_RSA_WITH_RC4_128_SHA => .RSA
  | .TLS_RSA_WITH_3DES_EDE_CBC_SHA => .RSA
  | .TLS_RSA_WITH_AES_128_CBC_SHA => .RSA
  | .TLS_RSA_WITH_AES_256_CBC_SHA => .RSA
  | .TLS_RSA_WITH_AES_128_GCM_SHA256 => .RSA
  | .TLS_RSA_WITH_AES_256_GCM_SHA384 => .RSA
  | .TLS_ECDHE_ECDSA_WITH_RC4_128_SHA => .ECDHE_ECDSA
  | .TLS_ECDHE_ECDSA_WITH_AES_128_CBC_SHA => .ECDHE_ECDSA
  | .TLS_ECDHE_ECDSA_WITH_AES_256_CBC_SHA => .ECDHE_ECDSA
  | .TLS_ECDHE_RSA_WITH_RC4_128_SHA => .ECDHE_RSA
  | .TLS_ECDHE_RSA_WITH_3DES_EDE_CBC_SHA => .ECDHE_RSA
  | .TLS_ECDHE_RSA_WITH_AES_128_CBC_SHA => .ECDHE_RSA
  | .TLS_ECDHE_RSA_WITH_AES_256_CBC_SHA => .ECDHE_RSA
  | .TLS_ECDHE_RSA_WITH_AES_128_GCM_SHA256 => .ECDHE_RSA
  | .TLS_ECDHE_ECDSA_WITH_AES_128_GCM_SHA256 => .ECDHE_ECDSA
  | .TLS_ECDHE_RSA_WITH_AES_256_GCM_SHA384 => .ECDHE_RSA
  | .TLS_ECDHE_ECDSA_WITH_AES_256_GCM_SHA384 => .ECDHE_ECDSA

/-- Bulk cipher that the name of the suite states. -/
def CipherSuite.cipher : CipherSuite → BulkCipher
  | .TLS_RSA_WITH_RC4_128_SHA => .RC4_128
  | .TLS_RSA_WITH_3DES_EDE_CBC_SHA => .TDES_EDE
  | .TLS_RSA_WITH_AES_128_CBC_SHA => .AES_128
  | .TLS_RSA_WITH_AES_256_CBC_SHA => .AES_256
  | .TLS_RSA_WITH_AES_128_GCM_SHA256 => .AES_128
  | .TLS_RSA_WITH_AES_256_GCM_SHA384 => .AES_256
  | .TLS_ECDHE_ECDSA_WITH_RC4_128_SHA => .RC4_128
  | .TLS_ECDHE_ECDSA_WITH_AES_128_CBC_SHA => .AES_128
  | .TLS_ECDHE_ECDSA_WITH_AES_256_CBC_SHA => .AES_256
  | .TLS_ECDHE_RSA_WITH_RC4_128_SHA => .RC4_128
  | .TLS_ECDHE_RSA_WITH_3DES_EDE_CBC_SHA => .TDES_EDE
  | .TLS_ECDHE_RSA_WITH_AES_128_CBC_SHA => .AES_128
  | .TLS_ECDHE_RSA_WITH_AES_256_CBC_SHA => .AES_256
  | .TLS_ECDHE_RSA_WITH_AES_128_GCM_SHA256 => .AES_128
  | .TLS_ECDHE_ECDSA_WITH_AES_128_GCM_SHA256 => .AES_128
  | .TLS_ECDHE_RSA_WITH_AES_256_GCM_SHA384 => .AES_256
  | .TLS_ECDHE_ECDSA_WITH_AES_256_GCM_SHA384 => .AES_256

/-- Mode of operation that the name of the suite states. -/
def CipherSuite.mode : CipherSuite → CipherMode
  | .TLS_RSA_WITH_RC4_128_SHA => .Stream
  | .TLS_RSA_WITH_3DES_EDE_CBC_SHA => .CBC
  | .TLS_RSA_WITH_AES_128_CBC_SHA => .CBC
  | .TLS_RSA_WITH_AES_256_CBC_SHA => .CBC
  | .TLS_RSA_WITH_AES_128_GCM_SHA256 => .GCM
  | .TLS_RSA_WITH_AES_256_GCM_SHA384 => .GCM
  | .TLS_ECDHE_ECDSA_WITH_RC4_128_SHA => .Stream
  | .TLS_ECDHE_ECDSA_WITH_AES_128_CBC_SHA => .CBC
  | .TLS_ECDHE_ECDSA_WITH_AES_256_CBC_SHA => .CBC
  | .TLS_ECDHE_RSA_WITH_RC4_128_SHA => .Stream
  | .TLS_ECDHE_RSA_WITH_3DES_EDE_CBC_SHA => .CBC
  | .TLS_ECDHE_RSA_WITH_AES_128_CBC_SHA => .CBC
  | .TLS_ECDHE_RSA_WITH_AES_256_CBC_SHA => .CBC
  | .TLS_ECDHE_RSA_WITH_AES_128_GCM_SHA256 => .GCM
  | .TLS_ECDHE_ECDSA_WITH_AES_128_GCM_SHA256 => .GCM
  | .TLS_ECDHE_RSA_WITH_AES_256_GCM_SHA384 => .GCM
  | .TLS_ECDHE_ECDSA_WITH_AES_256_GCM_SHA384 => .GCM

/-- The fields of `tls.Config` that are relevant here. A field that a
composite literal does not name has its zero value: no certificates, version
`0`, empty lists, `false`. -/
structure TLSConfig where
  Certificates : List String := []
  MinVersion : Nat := 0
  CurvePreferences : List CurveID := []
  PreferServerCipherSuites : Bool := false
  CipherSuites : List CipherSuite := []
  deriving DecidableEq, Repr

/-- Duration constant `time.Second`, in nanoseconds (`time.Duration` counts
nanoseconds). -/
def Second : Int := 1000000000

/-- Duration constant `time.Minute`. -/
def Minute : Int := 60 * Second

/-- The fields of `http.Server` that `main` sets. `TLSConfig` is a pointer
(`none` is nil); `TLSNextProto` is a map, given by its list of keys (`none` is
the nil map, `some []` the empty map that `make` returns). -/
structure Server where
  Addr : String := ""
  ReadTimeout : Int := 0
  WriteTimeout : Int := 0
  TLSConfig : Option TLSConfig := none
  TLSNextProto : Option (List String) := none
  deriving DecidableEq, Repr

/-- Embedding of lines 107-134 of `main`: the TLS policy `config` and the
server `srv` built from the flags. -/
def main.setup (f : Flags) : TLSConfig × Server :=
  let config : TLSConfig :=
    { MinVersion := VersionTLS12
      CurvePreferences := [CurveID.CurveP521, CurveID.CurveP384, CurveID.CurveP256]
      PreferServerCipherSuites := true
      CipherSuites :=
        [ CipherSuite.TLS_ECDHE_RSA_WITH_AES_256_GCM_SHA384,
          CipherSuite.TLS_ECDHE_RSA_WITH_AES_256_CBC_SHA,
          CipherSuite.TLS_RSA_WITH_AES_256_GCM_SHA384,
          CipherSuite.TLS_RSA_WITH_AES_256_CBC_SHA ] }
  let srv : Server :=
    if f.certfile = "" ∨ f.keyfile = "" then
      { Addr := f.host ++ ":" ++ f.port
        WriteTimeout := 10 * Minute
        ReadTimeout := 5 * Minute }
    else
      { Addr := f.host ++ ":" ++ f.port
        WriteTimeout := 10 * Minute
        ReadTimeout := 5 * Minute
        TLSConfig := some config
        TLSNextProto := some [] }
  (config, srv)

/-! ## Lifecycle of `main` -/

/-- What `main` observes from its environment: the error of
`log.ParseLevel(loglevel)`, of `os.OpenFile(logfile, ...)`, of
`e.StartServer(srv)` and of `e.Shutdown(ctx)`; `none` is a nil error. -/
structure Env where
  parseLevelErr : Option String
  openFileErr : Option String
  startServerErr : Option String
  shutdownErr : Option String

/-- An observable step of `main`: a call of the logger, of `go`, of
`e.StartServer(srv)`, the receive on `quit`, or `e.Shutdown(ctx)` with the
timeout of `ctx`. -/
inductive Event where
  | Warn (msg : String)
  | Error (err : String)
  | Fatal (err : String)
  | SetLevelInfo
  | SetLevelParsed
  | SetOutputStdout
  | SetOutputFile
  | Go
  | StartServer (srv : Server)
  | AwaitInterrupt
  | Shutdown (timeout : Int)
  deriving DecidableEq, Repr

/-- How a run of `main` ends: `log.Fatal` exits the process with status 1,
otherwise `main` returns. -/
inductive Exit where
  | returned
  | fatal
  deriving DecidableEq, Repr

/-- A run of `main` in which the interrupt arrives: the steps of the main
goroutine, the steps of the goroutine that runs the listener, and the exit. -/
structure Run where
  mainSteps : List Event
  serverSteps : List Event
  exit : Exit
  deriving DecidableEq, Repr

/-- Embedding of the control flow of `main` (lines 83-96 and 136-152) for the
flags `f` and the environment `env`. -/
def main.run (f : Flags) (env : Env) : Run :=
  let s1 : List Event :=
    match env.parseLevelErr with
    | some _ => [Event.Warn "Unable to parse loglevel, setting to default: info", Event.SetLevelInfo]
    | none => [Event.SetLevelParsed]
  let s2 : List Event :=
    match env.openFileErr with
    | some e => [Event.SetOutputStdout, Event.Warn ("Error opening logfile: " ++ e)]
    | none => [Event.SetOutputFile]
  let srv : Server := (main.setup f).2
  let server : List Event :=
    match env.startServerErr with
    | some e => [Event.StartServer srv, Event.Error e]
    | none => [Event.StartServer srv]
  let s3 : List Event := [Event.Go, Event.AwaitInterrupt, Event.Shutdown (10 * Second)]
  match env.shutdownErr with
  | some e =>
    { mainSteps := s1 ++ s2 ++ s3 ++ [Event.Fatal e], serverSteps := server, exit := Exit.fatal }
  | none =>
    { mainSteps := s1 ++ s2 ++ s3, serverSteps := server, exit := Exit.returned }

/-- Whether a step is a call of `e.Shutdown`. -/
def Event.isShutdown : Event → Bool
  | .Shutdown _ => true
  | _ => false

/-- Whether a step is a call of `log.Fatal`. -/
def Event.isFatal : Event → Bool
  | .Fatal _ => true
  | _ => false

/-- Colour that `randColor` builds from the three consecutive draws numbered
`k`, `k + 1` and `k + 2`. -/
def drawColor (draws : Nat → Nat) (k : Nat) : RGBA :=
  ⟨draws k % 255, draws (k + 1) % 255, draws (k + 2) % 255, 255⟩

/-- A sample generator state: draw number `i` is `7 * i + 3`, nothing consumed. -/
def sampleRng : Rng := { draws := fun i => 7 * i + 3, pos := 0, calls := [] }

/-! ## Helper lemmas on the generator and the loops -/

/-- The embedding of `rand.Intn(n)` for `n > 0` returns a value of `[0, n)` and
consumes one draw. -/
theorem Intn_range (n : Int) (hn : 0 < n) (g : Rng) :
    ∃ (v : Int) (g1 : Rng), Intn n g = some (v, g1) ∧ 0 ≤ v ∧ v < n ∧ g1.pos = g.pos + 1 := by
  have h : ¬ n ≤ 0 := by omega
  refine ⟨(g.draws g.pos : Int) % n, { g with pos := g.pos + 1, calls := g.calls ++ [n] },
    by simp only [Intn, h, if_false], ?_, ?_, rfl⟩
  · exact Int.emod_nonneg _ (by omega)
  · exact Int.emod_lt_of_pos _ hn

/-- Every value of `[0, n)` is returned by the embedding of `rand.Intn(n)` for
some stream of draws. -/
theorem Intn_surjective (n : Int) (v : Int) (h0 : 0 ≤ v) (hv : v < n) :
    ∃ g1 : Rng, Intn n { draws := fun _ => v.toNat, pos := 0, calls := [] } = some (v, g1) := by
  have h : ¬ n ≤ 0 := by omega
  refine ⟨{ draws := fun _ => v.toNat, pos := 1, calls := [n] }, ?_⟩
  simp only [Intn, h, if_false, Int.toNat_of_nonneg h0, Int.emod_eq_of_lt h0 hv]
  simp

theorem uint8_draw (d : Nat) : uint8 ((d : Int) % 255) = d % 255 := by
  unfold uint8
  omega

theorem randColor_eq (g : Rng) :
    randColor g = some (drawColor g.draws g.pos,
      { g with pos := g.pos + 3, calls := g.calls ++ [255, 255, 255] }) := by
  simp [randColor, randInt, Intn, drawColor, uint8_draw, Nat.add_assoc]

theorem loopY_spec (x height : Int) (n : Nat) :
    ∀ (y : Int) (img : Image) (g : Rng), 0 ≤ y → height - y = n →
      0 ≤ x → x < img.W → height ≤ img.H →
      ∃ img1 : Image,
        serveImage.loopY x height y img g
            = some (img1, { g with pos := g.pos + 3 * n,
                                   calls := g.calls ++ List.replicate (3 * n) 255 }) ∧
          img1.W = img.W ∧ img1.H = img.H ∧
          ∀ x1 y1 : Int, img1.RGBAAt x1 y1 =
            if x1 = x ∧ y ≤ y1 ∧ y1 < height then
              drawColor g.draws (g.pos + 3 * (y1 - y).toNat)
            else img.RGBAAt x1 y1 := by
  induction n with
  | zero =>
    intro y img g _ hn _ _ _
    refine ⟨img, ?_, rfl, rfl, ?_⟩
    · rw [serveImage.loopY]
      have : ¬ y < height := by omega
      simp [this]
    · intro x1 y1
      have : ¬ (x1 = x ∧ y ≤ y1 ∧ y1 < height) := by omega
      simp [this]
  | succ n ih =>
    intro y img g hy hn hx hxW hH
    have hlt : y < height := by omega
    have hin : 0 ≤ x ∧ x < img.W ∧ 0 ≤ y ∧ y < img.H := by omega
    obtain ⟨img1, h1, hW, hHt, hpix⟩ :=
      ih (y + 1) (img.Set x y (drawColor g.draws g.pos))
        { g with pos := g.pos + 3, calls := g.calls ++ [255, 255, 255] }
        (by omega) (by push_cast at hn; omega) hx
        (by simp [Image.Set, hin]) (by simp [Image.Set, hin]; omega)
    refine ⟨img1, ?_, ?_, ?_, ?_⟩
    · rw [serveImage.loopY]
      simp only [hlt, if_true, randColor_eq]
      rw [h1]
      simp only [Option.some.injEq, Prod.mk.injEq, true_and]
      have e1 : g.pos + 3 + 3 * n = g.pos + 3 * (n + 1) := by omega
      have e2 : g.calls ++ [255, 255, 255] ++ List.replicate (3 * n) 255
          = g.calls ++ List.replicate (3 * (n + 1)) 255 := by
        have : 3 * (n + 1) = 3 * n + 1 + 1 + 1 := by omega
        rw [this]
        simp [List.replicate_succ]
      simp [e1, e2]
    · simp [hW, Image.Set, hin]
    · simp [hHt, Image.Set, hin]
    · intro x1 y1
      rw [hpix]
      by_cases hc : x1 = x ∧ y + 1 ≤ y1 ∧ y1 < height
      · have hc2 : x1 = x ∧ y ≤ y1 ∧ y1 < height := by omega
        rw [if_pos hc, if_pos hc2]
        congr 1
        simp only
        omega
      · rw [if_neg hc]
        by_cases hd : x1 = x ∧ y1 = y
        · have hc2 : x1 = x ∧ y ≤ y1 ∧ y1 < height := by omega
          rw [if_pos hc2]
          simp only [Image.Set, hin, and_self, if_true, hd]
          obtain ⟨_, hd2⟩ := hd
          subst hd2
          simp
        · have hc2 : ¬ (x1 = x ∧ y ≤ y1 ∧ y1 < height) := by omega
          rw [if_neg hc2]
          simp [Image.Set, hin, hd]

theorem loopX_spec (width height : Int) (hh : 0 ≤ height) (n : Nat) :
    ∀ (x : Int) (img : Image) (g : Rng), 0 ≤ x → width - x = n →
      width ≤ img.W → height ≤ img.H →
      ∃ img1 : Image,
        serveImage.loopX width height x img g
            = some (img1, { g with pos := g.pos + 3 * (n * height.toNat),
                                   calls := g.calls ++
                                     List.replicate (3 * (n * height.toNat)) 255 }) ∧
          img1.W = img.W ∧ img1.H = img.H ∧
          ∀ x1 y1 : Int, img1.RGBAAt x1 y1 =
            if x ≤ x1 ∧ x1 < width ∧ 0 ≤ y1 ∧ y1 < height then
              drawColor g.draws (g.pos + 3 * ((x1 - x).toNat * height.toNat + y1.toNat))
            else img.RGBAAt x1 y1 := by
  induction n with
  | zero =>
    intro x img g _ hn _ _
    refine ⟨img, ?_, rfl, rfl, ?_⟩
    · rw [serveImage.loopX]
      have : ¬ x < width := by omega
      simp [this]
    · intro x1 y1
      have : ¬ (x ≤ x1 ∧ x1 < width ∧ 0 ≤ y1 ∧ y1 < height) := by omega
      simp [this]
  | succ n ih =>
    intro x img g hx hn hW hH
    have hlt : x < width := by omega
    obtain ⟨img1, h1, hW1, hH1, hpix1⟩ :=
      loopY_spec x height height.toNat 0 img g (le_refl 0) (by omega) hx (by omega) hH
    obtain ⟨img2, h2, hW2, hH2, hpix2⟩ :=
      ih (x + 1) img1
        { g with pos := g.pos + 3 * height.toNat,
                 calls := g.calls ++ List.replicate (3 * height.toNat) 255 }
        (by omega) (by push_cast at hn; omega) (by omega) (by omega)
    refine ⟨img2, ?_, by omega, by omega, ?_⟩
    · rw [serveImage.loopX]
      simp only [hlt, if_true, h1]
      rw [h2]
      simp only [Option.some.injEq, Prod.mk.injEq, true_and]
      have e1 : g.pos + 3 * height.toNat + 3 * (n * height.toNat)
          = g.pos + 3 * ((n + 1) * height.toNat) := by ring
      have e2 : 3 * ((n + 1) * height.toNat)
          = 3 * height.toNat + 3 * (n * height.toNat) := by ring
      simp only [e1, e2, List.replicate_add, List.append_assoc]
    · intro x1 y1
      rw [hpix2, hpix1]
      by_cases hc : x + 1 ≤ x1 ∧ x1 < width ∧ 0 ≤ y1 ∧ y1 < height
      · have hc2 : x ≤ x1 ∧ x1 < width ∧ 0 ≤ y1 ∧ y1 < height := by omega
        rw [if_pos hc, if_pos hc2]
        congr 1
        simp only
        have e : (x1 - x).toNat = (x1 - (x + 1)).toNat + 1 := by omega
        rw [e]
        ring
      · rw [if_neg hc]
        by_cases hd : x1 = x ∧ 0 ≤ y1 ∧ y1 < height
        · have hc2 : x ≤ x1 ∧ x1 < width ∧ 0 ≤ y1 ∧ y1 < height := by omega
          rw [if_pos hd, if_pos hc2]
          congr 1
          have e : (x1 - x).toNat = 0 := by omega
          rw [e]
          simp
        · have hc2 : ¬ (x ≤ x1 ∧ x1 < width ∧ 0 ≤ y1 ∧ y1 < height) := by omega
          rw [if_neg hd, if_neg hc2]

/-- Full description of a run of `serveImage` from generator state `g`: it
returns, the side is `10 + d % 40` for the first draw `d`, exactly
`1 + 3 * side * side` draws are consumed, the `Intn` arguments are `40` once
and then `255`, and pixel `(x, y)` holds the colour of the three draws that
start at number `1 + 3 * (x * side + y)`. -/
theorem serveImage_spec (g : Rng) :
    ∃ img : Image,
      serveImage g
          = some (img, { g with
              pos := g.pos + 1 + 3 * ((10 + g.draws g.pos % 40) * (10 + g.draws g.pos % 40)),
              calls := g.calls ++ [40] ++
                List.replicate (3 * ((10 + g.draws g.pos % 40) * (10 + g.draws g.pos % 40))) 255 }) ∧
        img.W = ((10 + g.draws g.pos % 40 : Nat) : Int) ∧
        img.H = ((10 + g.draws g.pos % 40 : Nat) : Int) ∧
        ∀ x y : Nat, x < 10 + g.draws g.pos % 40 → y < 10 + g.draws g.pos % 40 →
          img.RGBAAt x y
            = drawColor g.draws (g.pos + (1 + 3 * (x * (10 + g.draws g.pos % 40) + y))) := by
  obtain ⟨img, h, hW, hH, hpix⟩ :=
    loopX_spec (((10 + g.draws g.pos % 40 : Nat) : Int)) (((10 + g.draws g.pos % 40 : Nat) : Int))
      (by omega) (10 + g.draws g.pos % 40) 0
      (NewRGBA (((10 + g.draws g.pos % 40 : Nat) : Int)) (((10 + g.draws g.pos % 40 : Nat) : Int)))
      { g with pos := g.pos + 1, calls := g.calls ++ [40] }
      (le_refl 0) (by omega) (by simp [NewRGBA]) (by simp [NewRGBA])
  refine ⟨img, ?_, by simpa [NewRGBA] using hW, by simpa [NewRGBA] using hH, ?_⟩
  · have hr : randInt 10 50 g
        = some ((((10 + g.draws g.pos % 40 : Nat) : Int)),
            { g with pos := g.pos + 1, calls := g.calls ++ [40] }) := by
      simp [randInt, Intn]
    simp only [serveImage, hr]
    rw [h]
    simp only [Int.toNat_ofNat]
  · intro x y hx hy
    rw [hpix]
    have hc : (0 : Int) ≤ (x : Int) ∧ (x : Int) < ((10 + g.draws g.pos % 40 : Nat) : Int) ∧
        (0 : Int) ≤ (y : Int) ∧ (y : Int) < ((10 + g.draws g.pos % 40 : Nat) : Int) := by
      omega
    rw [if_pos hc]
    congr 1
    simp only [Int.toNat_ofNat, sub_zero]
    ring

/-- Positions of draws are distinct for distinct pixels and channels: the map
from `(x, y, c)` with `y < size` and `c < 3` to `1 + 3 * (x * size + y) + c` is
injective. -/
theorem draw_index_inj (size x y c x1 y1 c1 : Nat) (hy : y < size) (hy1 : y1 < size)
    (hc : c < 3) (hc1 : c1 < 3)
    (h : 1 + 3 * (x * size + y) + c = 1 + 3 * (x1 * size + y1) + c1) :
    x = x1 ∧ y = y1 ∧ c = c1 := by
  have h3 : x * size + y = x1 * size + y1 := by omega
  have hcc : c = c1 := by omega
  have hs : 0 < size := by omega
  have hx : x = x1 := by
    have e1 : (x * size + y) / size = x := by
      rw [Nat.add_comm, Nat.add_mul_div_right _ _ hs, Nat.div_eq_of_lt hy, Nat.zero_add]
    have e2 : (x1 * size + y1) / size = x1 := by
      rw [Nat.add_comm, Nat.add_mul_div_right _ _ hs, Nat.div_eq_of_lt hy1, Nat.zero_add]
    rw [h3] at e1
    omega
  subst hx
  exact ⟨rfl, by omega, hcc⟩

/-- Every index of a draw used for a pixel of a `size`-sided image lies below
`1 + 3 * size * size`. -/
theorem draw_index_lt (size x y c : Nat) (hx : x < size) (hy : y < size) (hc : c < 3) :
    1 + 3 * (x * size + y) + c < 1 + 3 * (size * size) := by
  have h1 : (x + 1) * size ≤ size * size := Nat.mul_le_mul_right size hx
  have h2 : (x + 1) * size = x * size + size := by ring
  omega

/-! ## Claims on the decoy image generator -/

/-- C1: for every state of the generator, `serveImage` builds a square image
whose side is the value `randInt(10, 50)` returns on the first draw, and the
side lies between 10 and 49 inclusive. -/
theorem serveImage_square (g : Rng) :
    ∃ (img : Image) (g1 g2 : Rng),
      randInt 10 50 g = some (img.W, g1) ∧ g1.pos = g.pos + 1 ∧
      serveImage g = some (img, g2) ∧
      img.W = img.H ∧ 10 ≤ img.W ∧ img.W ≤ 49 := by
  obtain ⟨img, h, hW, hH, _⟩ := serveImage_spec g
  refine ⟨img, { g with pos := g.pos + 1, calls := g.calls ++ [40] }, _, ?_, rfl, h, ?_, ?_, ?_⟩
  · rw [hW]
    simp [randInt, Intn]
  · rw [hW, hH]
  · omega
  · omega

/-- C3: for every state of the generator, `serveImage` returns an image in
which every pixel `(x, y)` inside the bounds has alpha 255, so none keeps the
transparent zero colour of `image.NewRGBA`. -/
theorem serveImage_opaque (g : Rng) :
    ∃ (img : Image) (g2 : Rng), serveImage g = some (img, g2) ∧
      ∀ x y : Int, 0 ≤ x → x < img.W → 0 ≤ y → y < img.H →
        (img.RGBAAt x y).A = 255 ∧ img.RGBAAt x y ≠ (NewRGBA img.W img.H).RGBAAt x y := by
  obtain ⟨img, h, hW, hH, hpix⟩ := serveImage_spec g
  refine ⟨img, _, h, ?_⟩
  intro x y hx0 hx hy0 hy
  have e := hpix x.toNat y.toNat (by omega) (by omega)
  rw [Int.toNat_of_nonneg hx0, Int.toNat_of_nonneg hy0] at e
  rw [e]
  simp [drawColor, NewRGBA]

/-- Witness of C3 at the sample generator: the image has a pixel `(3, 4)` and
its alpha is 255. -/
theorem serveImage_opaque_witness :
    ∃ (img : Image) (g2 : Rng), serveImage sampleRng = some (img, g2) ∧
      (0 : Int) ≤ 3 ∧ 3 < img.W ∧ (0 : Int) ≤ 4 ∧ 4 < img.H ∧ (img.RGBAAt 3 4).A = 255 := by
  obtain ⟨img, g2, h, hp⟩ := serveImage_opaque sampleRng
  obtain ⟨img1, h1, hW, hH, _⟩ := serveImage_spec sampleRng
  rw [h] at h1
  have e : img = img1 := by
    injection h1 with h1
    injection h1
  subst e
  have hW3 : (3 : Int) < img.W := by rw [hW]; omega
  have hH4 : (4 : Int) < img.H := by rw [hH]; omega
  exact ⟨img, g2, h, by decide, hW3, by decide, hH4, (hp 3 4 (by decide) hW3 (by decide) hH4).1⟩

/-- C9: for every stream of draws, `serveImage` returns without a panic after
consuming exactly `1 + 3 * size ^ 2` draws (at most 7204), where `size` is the
side given by the first draw; the arguments of its `Intn` calls are 40 once
and then 255, all positive; pixel `(x, y)` takes red, green and blue from the
consecutive draws numbered `1 + 3 * (x * size + y)`, `+ 1` and `+ 2`; these
numbers lie in the consumed range after draw 0 and no two pixels or channels
share one. -/
theorem serveImage_draws (g : Rng) :
    ∃ (size : Nat) (img : Image) (g1 g2 : Rng),
      randInt 10 50 g = some ((size : Int), g1) ∧ g1.pos = g.pos + 1 ∧
      serveImage g = some (img, g2) ∧
      img.W = size ∧ img.H = size ∧ size ≤ 49 ∧
      g2.draws = g.draws ∧
      g2.pos = g.pos + (1 + 3 * size ^ 2) ∧
      1 + 3 * size ^ 2 ≤ 1 + 3 * 49 ^ 2 ∧ 1 + 3 * 49 ^ 2 = 7204 ∧
      g2.calls = g.calls ++ (40 : Int) :: List.replicate (3 * size ^ 2) (255 : Int) ∧
      (∀ n ∈ (40 : Int) :: List.replicate (3 * size ^ 2) (255 : Int), 0 < n) ∧
      (∀ x y : Nat, x < size → y < size →
        (img.RGBAAt x y).R = g.draws (g.pos + (1 + 3 * (x * size + y))) % 255 ∧
        (img.RGBAAt x y).G = g.draws (g.pos + (1 + 3 * (x * size + y) + 1)) % 255 ∧
        (img.RGBAAt x y).B = g.draws (g.pos + (1 + 3 * (x * size + y) + 2)) % 255) ∧
      (∀ x y c : Nat, x < size → y < size → c < 3 →
        1 ≤ 1 + 3 * (x * size + y) + c ∧ 1 + 3 * (x * size + y) + c < 1 + 3 * size ^ 2) ∧
      (∀ x y c x1 y1 c1 : Nat, x < size → y < size → c < 3 → x1 < size → y1 < size → c1 < 3 →
        1 + 3 * (x * size + y) + c = 1 + 3 * (x1 * size + y1) + c1 →
        x = x1 ∧ y = y1 ∧ c = c1) := by
  obtain ⟨img, h, hW, hH, hpix⟩ := serveImage_spec g
  have hsz : 10 + g.draws g.pos % 40 ≤ 49 := by omega
  have hsq : (10 + g.draws g.pos % 40) ^ 2 ≤ 49 ^ 2 := Nat.pow_le_pow_left hsz 2
  refine ⟨10 + g.draws g.pos % 40, img,
    { g with pos := g.pos + 1, calls := g.calls ++ [40] }, _, ?_, rfl, h, hW, hH, hsz, rfl,
    ?_, ?_, by norm_num, ?_, ?_, ?_, ?_, ?_⟩
  · simp [randInt, Intn]
  · simp only [sq]
    omega
  · omega
  · simp [sq]
  · intro n hn
    rcases List.mem_cons.mp hn with h40 | h255
    · omega
    · have := List.eq_of_mem_replicate h255
      omega
  · intro x y hx hy
    rw [hpix x y hx hy]
    simp [drawColor, Nat.add_assoc]
  · intro x y c hx hy hc
    have := draw_index_lt _ x y c hx hy hc
    simp only [sq]
    omega
  · intro x y c x1 y1 c1 _ hy hc _ hy1 hc1 he
    exact draw_index_inj _ x y c x1 y1 c1 hy hy1 hc hc1 he

/-- Witness of C9 at the sample generator, whose first draw is 3: the side is
13, 508 draws are consumed, and pixel `(3, 4)` takes its channels from the
draws numbered 130, 131 and 132. -/
theorem serveImage_draws_witness :
    ∃ (img : Image) (g2 : Rng), serveImage sampleRng = some (img, g2) ∧
      img.W = 13 ∧ g2.pos = 508 ∧ img.RGBAAt 3 4 = ⟨148, 155, 162, 255⟩ := by
  obtain ⟨size, img, g1, g2, hr, _, h, hW, _, _, _, hpos, _, _, _, _, hpix, _, _⟩ :=
    serveImage_draws sampleRng
  have hs : size = 13 := by
    simp [randInt, Intn, sampleRng] at hr
    omega
  subst hs
  obtain ⟨img1, h1, _, _, hp1⟩ := serveImage_spec sampleRng
  rw [h] at h1
  have e : img = img1 := by
    injection h1 with h1
    injection h1
  subst e
  refine ⟨img, g2, h, by simpa using hW, by simpa [sampleRng] using hpos, ?_⟩
  have := hp1 3 4 (by simp [sampleRng]) (by simp [sampleRng])
  simpa [sampleRng, drawColor] using this

/-- C4, refuted at `v = 255`: no state of the generator makes `randColor`
return a colour with a red, green or blue channel equal to 255, because
`randInt(0, 255)` returns at most 254. -/
theorem randColor_never_255 :
    ¬ ∃ (g : Rng) (c : RGBA) (g1 : Rng),
        randColor g = some (c, g1) ∧ (c.R = 255 ∨ c.G = 255 ∨ c.B = 255) := by
  rintro ⟨g, c, g1, h, hc⟩
  rw [randColor_eq] at h
  injection h with h
  injection h with hcol _
  subst hcol
  simp only [drawColor] at hc
  omega

/-- Every channel value up to 254 is reached: for `v <= 254` the generator whose
draws all equal `v` makes `randColor` return the colour with red, green and
blue equal to `v`, and alpha 255. -/
theorem randColor_reaches (v : Nat) (hv : v ≤ 254) :
    ∃ g1 : Rng, randColor { draws := fun _ => v, pos := 0, calls := [] }
      = some (⟨v, v, v, 255⟩, g1) := by
  have e : v % 255 = v := Nat.mod_eq_of_lt (by omega)
  rw [randColor_eq]
  exact ⟨{ draws := fun _ => v, pos := 3, calls := [255, 255, 255] }, by simp [drawColor, e]⟩

/-- For every state of the generator `randColor` returns, and its red, green
and blue channels are at most 254 while alpha is 255. -/
theorem randColor_range (g : Rng) :
    ∃ (c : RGBA) (g1 : Rng), randColor g = some (c, g1) ∧
      c.R ≤ 254 ∧ c.G ≤ 254 ∧ c.B ≤ 254 ∧ c.A = 255 := by
  refine ⟨_, _, randColor_eq g, ?_, ?_, ?_, rfl⟩ <;> simp only [drawColor] <;> omega

/-! ## Claims on the fallback dispatcher -/

theorem list_suffix_iff {α : Type} (l m : List α) :
    (l.length ≥ m.length ∧ l.drop (l.length - m.length) = m) ↔ ∃ p : List α, l = p ++ m := by
  constructor
  · rintro ⟨_, h⟩
    refine ⟨l.take (l.length - m.length), ?_⟩
    conv_lhs => rw [← List.take_append_drop (l.length - m.length) l]
    rw [h]
  · rintro ⟨p, rfl⟩
    refine ⟨by simp, ?_⟩
    simp

/-- The embedding of `strings.HasSuffix` holds exactly when the string is some
prefix followed by the suffix. -/
theorem HasSuffix_iff (s suffix : String) :
    HasSuffix s suffix = true ↔ ∃ pre : String, s = pre ++ suffix := by
  unfold HasSuffix
  rw [Bool.and_eq_true, decide_eq_true_eq, decide_eq_true_eq, list_suffix_iff]
  constructor
  · rintro ⟨p, hp⟩
    refine ⟨⟨p⟩, ?_⟩
    apply String.ext
    simpa using hp
  · rintro ⟨pre, rfl⟩
    exact ⟨pre.data, by simp⟩

/-- A string whose last characters differ from a suffix of the same length
does not have that suffix, whatever precedes them. -/
theorem HasSuffix_false_of_tail (s mid tail suffix : String)
    (hlen : tail.data.length = suffix.data.length) (hne : tail.data ≠ suffix.data) :
    HasSuffix (s ++ (mid ++ tail)) suffix = false := by
  rw [Bool.eq_false_iff]
  intro h
  obtain ⟨pre, hp⟩ := (HasSuffix_iff _ _).mp h
  have hd := congrArg String.data hp
  simp only [String.data_append] at hd
  rw [← List.append_assoc] at hd
  exact hne (List.append_inj' hd hlen).2

/-- C2: for every error value and request path, `customHTTPErrorHandler` makes
exactly one call: `serveImage` when the path is some prefix followed by the
exact suffix `.jpg`, and `heff.DefaultHoneypot` otherwise; the choice is the
same for every error value; paths ending in `.JPG`, `.jpeg` or `.jpg/` go to
the honeypot. -/
theorem customHTTPErrorHandler_dispatch (dir err reqPath : String) :
    (((∃ pre : String, reqPath = pre ++ ".jpg") ∧
        customHTTPErrorHandler dir err reqPath = [Call.serveImage dir reqPath]) ∨
      ((¬ ∃ pre : String, reqPath = pre ++ ".jpg") ∧
        customHTTPErrorHandler dir err reqPath = [Call.DefaultHoneypot reqPath])) ∧
    (∀ err1 : String,
      customHTTPErrorHandler dir err1 reqPath = customHTTPErrorHandler dir err reqPath) ∧
    customHTTPErrorHandler dir err (reqPath ++ ".JPG")
      = [Call.DefaultHoneypot (reqPath ++ ".JPG")] ∧
    customHTTPErrorHandler dir err (reqPath ++ ".jpeg")
      = [Call.DefaultHoneypot (reqPath ++ ".jpeg")] ∧
    customHTTPErrorHandler dir err (reqPath ++ ".jpg/")
      = [Call.DefaultHoneypot (reqPath ++ ".jpg/")] := by
  refine ⟨?_, fun _ => rfl, ?_, ?_, ?_⟩
  · by_cases h : HasSuffix reqPath ".jpg" = true
    · exact Or.inl ⟨(HasSuffix_iff _ _).mp h, by simp [customHTTPErrorHandler, h]⟩
    · exact Or.inr ⟨fun hp => h ((HasSuffix_iff _ _).mpr hp), by simp [customHTTPErrorHandler, h]⟩
  · have h := HasSuffix_false_of_tail reqPath "" ".JPG" ".jpg" (by decide) (by decide)
    have e : ("" : String) ++ ".JPG" = ".JPG" := by decide
    rw [e] at h
    simp [customHTTPErrorHandler, h]
  · have h := HasSuffix_false_of_tail reqPath "." "jpeg" ".jpg" (by decide) (by decide)
    have e : ("." : String) ++ "jpeg" = ".jpeg" := by decide
    rw [e] at h
    simp [customHTTPErrorHandler, h]
  · have h := HasSuffix_false_of_tail reqPath "." "jpg/" ".jpg" (by decide) (by decide)
    have e : ("." : String) ++ "jpg/" = ".jpg/" := by decide
    rw [e] at h
    simp [customHTTPErrorHandler, h]

/-- Witness of C2 on concrete requests: `/missing.jpg` is served an image and
`/missing.html`, `/a.JPG`, `/a.jpeg`, `/a.jpg/` and `.jp` go to the honeypot. -/
theorem customHTTPErrorHandler_dispatch_witness :
    customHTTPErrorHandler "." "not found" "/missing.jpg" = [Call.serveImage "." "/missing.jpg"] ∧
    customHTTPErrorHandler "." "not found" "/missing.html" = [Call.DefaultHoneypot "/missing.html"] ∧
    customHTTPErrorHandler "." "not found" "/a.JPG" = [Call.DefaultHoneypot "/a.JPG"] ∧
    customHTTPErrorHandler "." "not found" "/a.jpeg" = [Call.DefaultHoneypot "/a.jpeg"] ∧
    customHTTPErrorHandler "." "not found" "/a.jpg/" = [Call.DefaultHoneypot "/a.jpg/"] ∧
    customHTTPErrorHandler "." "not found" ".jp" = [Call.DefaultHoneypot ".jp"] := by
  have h := (customHTTPErrorHandler_dispatch "." "not found" "/a").2.2
  exact ⟨by decide, by decide, h.1, h.2.1, h.2.2, by decide⟩

/-! ## Claims on the listener construction -/

/-- C5: for all values of the certificate path and the key path, the server
built in `main` carries a TLS configuration exactly when both paths are
non-empty, it has none when either path is empty, and the configuration it
carries is exactly the policy built at lines 107-117. -/
theorem main_setup_tls (f : Flags) :
    ((main.setup f).2.TLSConfig = some (main.setup f).1 ↔ (f.certfile ≠ "" ∧ f.keyfile ≠ "")) ∧
    ((main.setup f).2.TLSConfig = none ↔ (f.certfile = "" ∨ f.keyfile = "")) ∧
    (main.setup f).2.TLSConfig =
      (if f.certfile ≠ "" ∧ f.keyfile ≠ "" then
        some
          { MinVersion := 0x0303
            CurvePreferences := [CurveID.CurveP521, CurveID.CurveP384, CurveID.CurveP256]
            PreferServerCipherSuites := true
            CipherSuites :=
              [ CipherSuite.TLS_ECDHE_RSA_WITH_AES_256_GCM_SHA384,
                CipherSuite.TLS_ECDHE_RSA_WITH_AES_256_CBC_SHA,
                CipherSuite.TLS_RSA_WITH_AES_256_GCM_SHA384,
                CipherSuite.TLS_RSA_WITH_AES_256_CBC_SHA ] }
      else none) := by
  by_cases h : f.certfile = "" ∨ f.keyfile = ""
  · have h2 : ¬ (f.certfile ≠ "" ∧ f.keyfile ≠ "") := by tauto
    simp [main.setup, h, h2]
  · have h2 : f.certfile ≠ "" ∧ f.keyfile ≠ "" := by tauto
    simp [main.setup, h, h2, VersionTLS12]

/-- Witness of C5 on the four combinations of an empty and a non-empty path. -/
theorem main_setup_tls_witness :
    (main.setup ⟨".", "localhost", "8888", "", "info", "/var/log/ttfn.log", "", ""⟩).2.TLSConfig
        = none ∧
    (main.setup ⟨".", "localhost", "8888", "", "info", "/var/log/ttfn.log", "c.pem", ""⟩).2.TLSConfig
        = none ∧
    (main.setup ⟨".", "localhost", "8888", "", "info", "/var/log/ttfn.log", "", "k.pem"⟩).2.TLSConfig
        = none ∧
    (main.setup ⟨".", "localhost", "8888", "", "info", "/var/log/ttfn.log", "c.pem", "k.pem"⟩).2.TLSConfig
        = some (main.setup ⟨".", "localhost", "8888", "", "info", "/var/log/ttfn.log", "c.pem", "k.pem"⟩).1 :=
  ⟨(main_setup_tls _).2.1.mpr (Or.inl rfl), (main_setup_tls _).2.1.mpr (Or.inr rfl),
    (main_setup_tls _).2.1.mpr (Or.inl rfl), (main_setup_tls _).1.mpr ⟨by decide, by decide⟩⟩

/-- C6: the TLS policy built in `main` is the same fixed value for all flags:
minimum version TLS 1.2, server cipher preference on, curves P-521, P-384,
P-256 in strictly descending size, and the four cipher suites in the stated
order, each with ECDHE-RSA or static RSA key exchange and AES-256 in GCM or
CBC mode; two builds give equal values. -/
theorem main_setup_config (f f1 : Flags) :
    (main.setup f).1 = (main.setup f1).1 ∧
    (main.setup f).1.MinVersion = 0x0303 ∧
    (main.setup f).1.PreferServerCipherSuites = true ∧
    (main.setup f).1.CurvePreferences
      = [CurveID.CurveP521, CurveID.CurveP384, CurveID.CurveP256] ∧
    ((main.setup f).1.CurvePreferences.map CurveID.bits).Pairwise (fun a b => a > b) ∧
    (main.setup f).1.CipherSuites
      = [ CipherSuite.TLS_ECDHE_RSA_WITH_AES_256_GCM_SHA384,
          CipherSuite.TLS_ECDHE_RSA_WITH_AES_256_CBC_SHA,
          CipherSuite.TLS_RSA_WITH_AES_256_GCM_SHA384,
          CipherSuite.TLS_RSA_WITH_AES_256_CBC_SHA ] ∧
    (∀ s ∈ (main.setup f).1.CipherSuites,
      (s.keyExchange = KeyExchange.ECDHE_RSA ∨ s.keyExchange = KeyExchange.RSA) ∧
      s.cipher = BulkCipher.AES_256 ∧
      (s.mode = CipherMode.GCM ∨ s.mode = CipherMode.CBC)) ∧
    (main.setup f).1.Certificates = [] := by
  refine ⟨rfl, rfl, rfl, rfl, by simp [main.setup, CurveID.bits], rfl, ?_, rfl⟩
  intro s hs
  simp only [main.setup, List.mem_cons, List.mem_singleton, List.not_mem_nil, or_false] at hs
  rcases hs with h | h | h | h <;> subst h <;> decide

/-- C7: for all flags, the server built in `main` has read timeout 5 minutes
(300 s), write timeout 10 minutes (600 s) and address `host ++ ":" ++ port`;
whatever the certificate and key paths are, the servers built agree once
`TLSConfig` and `TLSNextProto` are set aside, and these two fields are unset in
the plaintext branch and set in the TLS branch. -/
theorem main_setup_timeouts (f : Flags) (cert key : String) :
    (main.setup f).2.ReadTimeout = 5 * Minute ∧
    (main.setup f).2.ReadTimeout = 300 * Second ∧
    (main.setup f).2.WriteTimeout = 10 * Minute ∧
    (main.setup f).2.WriteTimeout = 600 * Second ∧
    (main.setup f).2.Addr = f.host ++ ":" ++ f.port ∧
    { (main.setup f).2 with TLSConfig := none, TLSNextProto := none }
      = { (main.setup { f with certfile := cert, keyfile := key }).2 with
            TLSConfig := none, TLSNextProto := none } ∧
    { (main.setup f).2 with TLSConfig := none, TLSNextProto := none }
      = ({ Addr := f.host ++ ":" ++ f.port, WriteTimeout := 10 * Minute,
           ReadTimeout := 5 * Minute } : Server) ∧
    (main.setup f).2.TLSNextProto
      = (if f.certfile = "" ∨ f.keyfile = "" then none else some []) ∧
    (main.setup f).2.TLSConfig
      = (if f.certfile = "" ∨ f.keyfile = "" then none else some (main.setup f).1) := by
  have key2 : ∀ g : Flags,
      ({ (main.setup g).2 with TLSConfig := none, TLSNextProto := none } : Server)
        = { Addr := g.host ++ ":" ++ g.port, WriteTimeout := 10 * Minute,
            ReadTimeout := 5 * Minute } := by
    intro g
    by_cases h : g.certfile = "" ∨ g.keyfile = "" <;> simp [main.setup, h]
  refine ⟨?_, ?_, ?_, ?_, ?_, ?_, key2 f, ?_, ?_⟩
  · by_cases h : f.certfile = "" ∨ f.keyfile = "" <;> simp [main.setup, h]
  · by_cases h : f.certfile = "" ∨ f.keyfile = "" <;> simp [main.setup, h, Minute] <;> ring
  · by_cases h : f.certfile = "" ∨ f.keyfile = "" <;> simp [main.setup, h]
  · by_cases h : f.certfile = "" ∨ f.keyfile = "" <;> simp [main.setup, h, Minute] <;> ring
  · by_cases h : f.certfile = "" ∨ f.keyfile = "" <;> simp [main.setup, h]
  · rw [key2 f, key2]
  · by_cases h : f.certfile = "" ∨ f.keyfile = "" <;> simp [main.setup, h]
  · by_cases h : f.certfile = "" ∨ f.keyfile = "" <;> simp [main.setup, h]

/-- C10: the server built in `main` depends on the certificate path and the key
path only through whether each is empty: two flag sets with equal host and
port whose paths are empty in the same positions (in particular any two pairs
of non-empty paths) give identical servers and identical calls of
`StartServer`, and a TLS configuration that is attached holds no certificate. -/
theorem main_setup_paths (f g : Flags) (env : Env)
    (hhost : f.host = g.host) (hport : f.port = g.port)
    (hcert : f.certfile = "" ↔ g.certfile = "") (hkey : f.keyfile = "" ↔ g.keyfile = "") :
    (main.setup f).2 = (main.setup g).2 ∧
    (main.run f env).serverSteps = (main.run g env).serverSteps ∧
    (main.setup f).2.TLSConfig
      = (if f.certfile = "" ∨ f.keyfile = "" then none else some (main.setup f).1) ∧
    (main.setup f).1.Certificates = [] := by
  have hsrv : (main.setup f).2 = (main.setup g).2 := by
    by_cases h : f.certfile = "" ∨ f.keyfile = ""
    · have h2 : g.certfile = "" ∨ g.keyfile = "" := by tauto
      simp [main.setup, h, h2, hhost, hport]
    · have h2 : ¬ (g.certfile = "" ∨ g.keyfile = "") := by tauto
      simp [main.setup, h, h2, hhost, hport]
  refine ⟨hsrv, ?_, ?_, rfl⟩
  · simp only [main.run, hsrv]
  · by_cases h : f.certfile = "" ∨ f.keyfile = "" <;> simp [main.setup, h]

/-- Witness of C10 on two different pairs of non-empty paths. -/
theorem main_setup_paths_witness :
    (main.setup ⟨".", "localhost", "8888", "", "info", "/var/log/ttfn.log", "a.pem", "b.pem"⟩).2
      = (main.setup ⟨"/srv", "localhost", "8888", "", "debug", "/tmp/log", "c.crt", "d.key"⟩).2 :=
  (main_setup_paths ⟨".", "localhost", "8888", "", "info", "/var/log/ttfn.log", "a.pem", "b.pem"⟩
    ⟨"/srv", "localhost", "8888", "", "debug", "/tmp/log", "c.crt", "d.key"⟩
    ⟨none, none, none, none⟩ rfl rfl (by decide) (by decide)).1

/-! ## Claims on the lifecycle -/

/-- C8: for all flags and all results of level parsing, log-file opening,
`StartServer` and `Shutdown`, the run of `main` ends in the fatal exit exactly
when `Shutdown` returns an error; `Shutdown` is called once, right after the
interrupt, with a timeout of exactly 10 seconds; `log.Fatal` is called only
with the error of `Shutdown`; an error of `StartServer` is only logged with
`log.Error` on the listener goroutine; the exit does not depend on the other
three results. -/
theorem main_run_fatal (f : Flags) (env : Env) (a b c : Option String) :
    ((main.run f env).exit = Exit.fatal ↔ env.shutdownErr ≠ none) ∧
    ((main.run f env).exit = Exit.returned ↔ env.shutdownErr = none) ∧
    (main.run f env).mainSteps.filter Event.isShutdown = [Event.Shutdown (10 * Second)] ∧
    10 * Second = 10000000000 ∧
    (∃ pre post : List Event,
      (main.run f env).mainSteps
        = pre ++ Event.AwaitInterrupt :: Event.Shutdown (10 * Second) :: post) ∧
    (main.run f env).mainSteps.filter Event.isFatal
      = (match env.shutdownErr with
        | some e => [Event.Fatal e]
        | none => []) ∧
    (main.run f env).serverSteps
      = Event.StartServer (main.setup f).2 ::
        (match env.startServerErr with
        | some e => [Event.Error e]
        | none => []) ∧
    (main.run f ⟨a, b, c, env.shutdownErr⟩).exit = (main.run f env).exit := by
  obtain ⟨pl, op, ss, sd⟩ := env
  refine ⟨?_, ?_, ?_, by decide, ?_, ?_, ?_, ?_⟩
  · cases sd <;> simp [main.run]
  · cases sd <;> simp [main.run]
  · cases pl <;> cases op <;> cases sd <;> simp [main.run, Event.isShutdown]
  · refine ⟨(match pl with
        | some _ =>
          [Event.Warn "Unable to parse loglevel, setting to default: info", Event.SetLevelInfo]
        | none => [Event.SetLevelParsed]) ++
      (match op with
        | some e => [Event.SetOutputStdout, Event.Warn ("Error opening logfile: " ++ e)]
        | none => [Event.SetOutputFile]) ++ [Event.Go],
      (match sd with
        | some e => [Event.Fatal e]
        | none => []), ?_⟩
    cases pl <;> cases op <;> cases sd <;> simp [main.run]
  · cases pl <;> cases op <;> cases sd <;> simp [main.run, Event.isFatal]
  · cases ss <;> cases sd <;> simp [main.run]
  · cases sd <;> simp [main.run]

/-- Witness of C8 on two concrete runs: with the port already bound and a clean
shutdown `main` returns, and with a failed shutdown it takes the fatal exit. -/
theorem main_run_fatal_witness :
    (main.run ⟨".", "localhost", "8888", "", "info", "/var/log/ttfn.log", "", ""⟩
        ⟨some "bad level", some "denied", some "address already in use", none⟩).exit
      = Exit.returned ∧
    (main.run ⟨".", "localhost", "8888", "", "info", "/var/log/ttfn.log", "", ""⟩
        ⟨none, none, none, some "context deadline exceeded"⟩).exit
      = Exit.fatal :=
  ⟨(main_run_fatal _ _ none none none).2.1.mpr rfl,
    (main_run_fatal _ _ none none none).1.mpr (by decide)⟩

end TTFN
